import Mathlib

set_option maxRecDepth 10000

/-!
Verification of the natural-language-to-prompt pipeline
(`agent/parser.py`, `agent/optimizer.py`, `agent/validator.py`).

The Python code works by applying a fixed collection of concrete regular
expressions to the input text.  Each regular expression is embedded here as a
dedicated executable matcher over `List Char`, following Python `re` semantics
for exactly the constructs those patterns use: leftmost search, ordered
alternation of literal words (none of the alternative literals of any one
alternation is a prefix of another, so committing to the first matching
alternative agrees with backtracking), greedy `\s+` / `\s*` (on the
whitespace-trimmed strings produced by `parse`, a whitespace run is never at
the end of the text, so maximal munch never needs to backtrack), optional
groups `(?:w\s+)?` (tried with the word first, then without), and the lazy
capture `(.+?)` followed by a terminator set (shortest capture, `.` does not
match a newline, `$` matches only at the end of the trimmed text).
`re.IGNORECASE` is modelled by comparing characters through `Char.toLower`
while capturing the original slice.  Python whitespace is modelled by the six
ASCII whitespace characters.
-/

/-- The six ASCII characters Python's `\s` and `str.strip()` treat as
whitespace (Unicode whitespace does not occur in any claim). -/
def isPyWs (c : Char) : Bool :=
  c == ' ' || c == '\t' || c == '\n' || c == '\r' || c == '\x0b' || c == '\x0c'

/-- Python `str.strip()` on a list of characters. -/
def pyStrip (l : List Char) : List Char :=
  ((l.dropWhile isPyWs).reverse.dropWhile isPyWs).reverse

/-- Python `str.strip()` on strings. -/
def pyStripStr (s : String) : String := ⟨pyStrip s.data⟩

/-- Helper for `splitWs`: accumulates the current word (reversed). -/
def splitWsAux : List Char → List Char → List (List Char)
  | [], acc => if acc.isEmpty then [] else [acc.reverse]
  | c :: cs, acc =>
    if isPyWs c then
      (if acc.isEmpty then splitWsAux cs [] else acc.reverse :: splitWsAux cs [])
    else splitWsAux cs (c :: acc)

/-- Python `str.split()` with no argument: split on whitespace runs,
discarding empty fields. -/
def splitWs (l : List Char) : List (List Char) := splitWsAux l []

/-- Python `str.count(c)` for a single-character needle. -/
def countChar (c : Char) (l : List Char) : Nat := (l.filter (· == c)).length

/-- Case-sensitive list-prefix test (Python `str.startswith` / the base case
of substring containment). -/
def isPrefixChars : List Char → List Char → Bool
  | [], _ => true
  | _ :: _, [] => false
  | c :: cs, d :: ds => c == d && isPrefixChars cs ds

/-- Python's case-sensitive `sub in hay` substring test. -/
def infixOf (sub : List Char) : List Char → Bool
  | [] => sub.isEmpty
  | d :: t => isPrefixChars sub (d :: t) || infixOf sub t

/-- Python `sep.join(parts)`. -/
def joinSep (sep : String) : List String → String
  | [] => ""
  | [p] => p
  | p :: q :: rest => p ++ sep ++ joinSep sep (q :: rest)

/-- Explicit `Option` alternative, used instead of `<|>` so that proofs can
decompose it by `cases`. -/
def orElseO {α : Type} (a b : Option α) : Option α :=
  match a with
  | some v => some v
  | none => b

/-- Match the literal `lit` (already lower-case in every pattern) as a
case-insensitive prefix of `s`; returns the rest of `s`. -/
def matchLitCI : List Char → List Char → Option (List Char)
  | [], s => some s
  | _ :: _, [] => none
  | c :: cs, d :: ds => if c.toLower == d.toLower then matchLitCI cs ds else none

/-- `\s+` (greedy): require at least one whitespace character and consume the
maximal run.  On trimmed inputs a whitespace run is always followed by a
non-whitespace character, so maximal munch agrees with backtracking. -/
def skipWs1 : List Char → Option (List Char)
  | [] => none
  | c :: cs => if isPyWs c then some (cs.dropWhile isPyWs) else none

/-- The lazy capture `(.+?)` followed by a terminator: the shortest non-empty
capture (never containing a newline, since `.` does not match one) such that
`term` matches right after it, or — when `allowEnd` is set, i.e. the
terminator alternation contains `$` — the capture ends the string.  Returns
the capture and the rest after the consumed terminator. -/
def lazyCapGen (term : List Char → Option (List Char)) (allowEnd : Bool) :
    List Char → Option (List Char × List Char)
  | [] => none
  | c :: cs =>
    if c == '\n' then none
    else
      match term cs with
      | some r => some ([c], r)
      | none =>
        match cs with
        | [] => if allowEnd then some ([c], []) else none
        | _ :: _ =>
          match lazyCapGen term allowEnd cs with
          | some (g, r) => some (c :: g, r)
          | none => none

/-- Ordered alternation of literal words `(?:w1|w2|...)`: first alternative
that matches.  In every pattern of the source no alternative is a proper
prefix of another, so this agrees with full backtracking. -/
def firstAltCI (alts : List (List Char)) (s : List Char) : Option (List Char) :=
  match alts with
  | [] => none
  | a :: rest => orElseO (matchLitCI a s) (firstAltCI rest s)

/-- An optional word `(?:w\s+)?` followed by the continuation `k`: the greedy
optional is tried with the word (and its trailing whitespace) first, then
without. -/
def optWordWs {α : Type} (w : List Char) (k : List Char → Option α) (s : List Char) :
    Option α :=
  match (matchLitCI w s).bind skipWs1 with
  | some s2 => orElseO (k s2) (k s)
  | none => k s

/-- `\s+(.+?)(?:term|$)`: whitespace, then the lazy capture. -/
def wsCapGroup (term : List Char → Option (List Char)) (s : List Char) :
    Option (List Char) :=
  ((skipWs1 s).bind (lazyCapGen term true)).map Prod.fst

/-- `re.search`: try the matcher at every position, leftmost first. -/
def searchCapture {α : Type} (m : List Char → Option α) : List Char → Option α
  | [] => m []
  | c :: cs => orElseO (m (c :: cs)) (searchCapture m cs)

/-- A terminator alternation of single characters, e.g. `(?:\.|,)`. -/
def termChars (ts : List Char) : List Char → Option (List Char)
  | [] => none
  | c :: r => if ts.contains c then some r else none

/-- `(?:\.)` as a terminator. -/
def termDotOnly : List Char → Option (List Char) := termChars ['.']

/-- `(?:\.|,)` as a terminator. -/
def termDotComma : List Char → Option (List Char) := termChars ['.', ',']

/-- `(.+?)(?:\.|$)` - the capture used by the intent and format patterns. -/
def capDot (s : List Char) : Option (List Char) :=
  (lazyCapGen termDotOnly true s).map Prod.fst

/-- The record produced by `NaturalLanguageParser.parse` (a Python dict with
these five string-typed entries). -/
structure ParsedRequest where
  intent : String
  context : String
  requirements : List String
  output_format : String
  original_text : String
deriving DecidableEq, Repr

namespace NaturalLanguageParser

/-- First group of verbs of `intent_patterns[0]`:
`(?:write|create|generate|make|build|develop)`. -/
def intentVerbs1 : List (List Char) :=
  ["write".data, "create".data, "generate".data, "make".data, "build".data,
   "develop".data]

/-- `intent_patterns[0]`: `(?:write|create|generate|make|build|develop)\s+(.+?)(?:\.|$)`. -/
def matchIntentP1 (s : List Char) : Option (List Char) :=
  (firstAltCI intentVerbs1 s).bind (wsCapGroup termDotOnly)

/-- `intent_patterns[1]`: `(?:explain|describe|tell me about)\s+(.+?)(?:\.|$)`. -/
def matchIntentP2 (s : List Char) : Option (List Char) :=
  (firstAltCI ["explain".data, "describe".data, "tell me about".data] s).bind
    (wsCapGroup termDotOnly)

/-- `intent_patterns[2]`: `(?:help|assist|guide)\s+(?:me\s+)?(?:with|to)\s+(.+?)(?:\.|$)`. -/
def matchIntentP3 (s : List Char) : Option (List Char) :=
  ((firstAltCI ["help".data, "assist".data, "guide".data] s).bind skipWs1).bind
    (optWordWs "me".data
      (fun s2 => (firstAltCI ["with".data, "to".data] s2).bind (wsCapGroup termDotOnly)))

/-- `intent_patterns[3]`: `(?:i\s+)?(?:want|need|would like)\s+(?:to\s+)?(.+?)(?:\.|$)`. -/
def matchIntentP4 (s : List Char) : Option (List Char) :=
  optWordWs "i".data
    (fun s1 =>
      ((firstAltCI ["want".data, "need".data, "would like".data] s1).bind skipWs1).bind
        (optWordWs "to".data capDot)) s

/-- `alt_patterns[0]` of `_extract_intent`:
`(?:write|create|generate|make|build|develop)\s+(?:me\s+)?(?:a\s+)?(.+?)(?:\.|$)`. -/
def matchIntentAlt1 (s : List Char) : Option (List Char) :=
  ((firstAltCI intentVerbs1 s).bind skipWs1).bind
    (optWordWs "me".data (optWordWs "a".data capDot))

/-- The `for pattern in self.intent_patterns: re.search(...)` loop: the first
pattern (in list order) that matches anywhere wins. -/
def intentMatch (tl : List Char) : Option (List Char) :=
  orElseO (searchCapture matchIntentP1 tl)
    (orElseO (searchCapture matchIntentP2 tl)
      (orElseO (searchCapture matchIntentP3 tl) (searchCapture matchIntentP4 tl)))

/-- The `alt_patterns` loop of `_extract_intent` (the second alternative is
`intent_patterns[0]` verbatim). -/
def intentAltMatch (tl : List Char) : Option (List Char) :=
  orElseO (searchCapture matchIntentAlt1 tl) (searchCapture matchIntentP1 tl)

/-- A `re.sub` alternative: one or more literal words separated by `\s+`
(all of `me|us|you|for\s+me|for\s+us|a|an|the` have this shape). -/
def matchWordsCI : List (List Char) → List Char → Option (List Char)
  | [], s => some s
  | [w], s => matchLitCI w s
  | w :: x :: rest, s =>
    (matchLitCI w s).bind fun r => (skipWs1 r).bind (matchWordsCI (x :: rest))

/-- `re.sub(r'^(alt1|alt2|...)\s+', '', s)`: the anchored substitution strips
the first alternative that matches at the start and is followed by
whitespace; otherwise leaves `s` unchanged. -/
def stripLeadAlt (alts : List (List (List Char))) (s : List Char) : List Char :=
  match alts with
  | [] => s
  | a :: rest =>
    match matchWordsCI a s with
    | some r =>
      match skipWs1 r with
      | some r2 => r2
      | none => stripLeadAlt rest s
    | none => stripLeadAlt rest s

/-- Alternatives of `^(me|us|you|for\s+me|for\s+us)\s+`. -/
def pronounAlts : List (List (List Char)) :=
  [["me".data], ["us".data], ["you".data], ["for".data, "me".data],
   ["for".data, "us".data]]

/-- Alternatives of `^(a|an|the)\s+`. -/
def articleAlts : List (List (List Char)) :=
  [["a".data], ["an".data], ["the".data]]

/-- Alternatives of the combined sub `^(me|us|you|for\s+me|for\s+us|a|an|the)\s+`
used in the alternative-pattern branch. -/
def comboAlts : List (List (List Char)) := pronounAlts ++ articleAlts

/-- `NaturalLanguageParser._extract_intent` (lines 67-109). -/
def extract_intent (text : List Char) : List Char :=
  let tl := text.map Char.toLower
  match intentMatch tl with
  | none => text
  | some g =>
    let i0 := pyStrip g
    let i1 := stripLeadAlt pronounAlts i0
    let i2 := stripLeadAlt articleAlts i1
    let i3 :=
      if decide ((splitWs i2).length ≤ 2) && infixOf "me".data (i2.map Char.toLower) then
        match intentAltMatch tl with
        | some g2 => stripLeadAlt comboAlts (pyStrip g2)
        | none => i2
      else i2
    pyStrip i3

/-- Context-pattern terminator `(?:,|\.|\s+w1|\s+w2|...)`. -/
def termCtx (words : List (List Char)) (cs : List Char) : Option (List Char) :=
  orElseO (termChars [',', '.'] cs) ((skipWs1 cs).bind (firstAltCI words))

/-- `given\s+(?:that\s+)?(.+?)(?:,|\.|\s+explain|\s+write|\s+create)`. -/
def ctxP1 (s : List Char) : Option (List Char) :=
  ((matchLitCI "given".data s).bind skipWs1).bind
    (optWordWs "that".data
      (fun s2 =>
        (lazyCapGen (termCtx ["explain".data, "write".data, "create".data]) false s2).map
          Prod.fst))

/-- `assuming\s+(?:that\s+)?(.+?)(?:,|\.|\s+explain|\s+write|\s+create)`. -/
def ctxP2 (s : List Char) : Option (List Char) :=
  ((matchLitCI "assuming".data s).bind skipWs1).bind
    (optWordWs "that".data
      (fun s2 =>
        (lazyCapGen (termCtx ["explain".data, "write".data, "create".data]) false s2).map
          Prod.fst))

/-- `for\s+(?:a\s+)?(.+?)(?:,|\.|\s+write|\s+create|\s+explain)`. -/
def ctxP3 (s : List Char) : Option (List Char) :=
  ((matchLitCI "for".data s).bind skipWs1).bind
    (optWordWs "a".data
      (fun s2 =>
        (lazyCapGen (termCtx ["write".data, "create".data, "explain".data]) false s2).map
          Prod.fst))

/-- `(?:context|background|situation):\s*(.+?)(?:\.|$)`. -/
def ctxP4 (s : List Char) : Option (List Char) :=
  (firstAltCI ["context".data, "background".data, "situation".data] s).bind fun s1 =>
    match s1 with
    | c :: rest => if c == ':' then capDot (rest.dropWhile isPyWs) else none
    | [] => none

/-- `as\s+(?:a\s+)?(.+?)(?:,|\.|\s+explain|\s+write)`. -/
def ctxP5 (s : List Char) : Option (List Char) :=
  ((matchLitCI "as".data s).bind skipWs1).bind
    (optWordWs "a".data
      (fun s2 =>
        (lazyCapGen (termCtx ["explain".data, "write".data]) false s2).map Prod.fst))

/-- `NaturalLanguageParser._extract_context` (lines 111-139): first pattern
whose cleaned capture is longer than 3 characters wins; context patterns run
on the original-case text. -/
def extract_context (text : List Char) : List Char :=
  let tryPat : (List Char → Option (List Char)) → Option (List Char) := fun m =>
    match searchCapture m text with
    | some g =>
      let c := stripLeadAlt articleAlts (pyStrip g)
      if 3 < c.length then some c else none
    | none => none
  (orElseO (tryPat ctxP1)
    (orElseO (tryPat ctxP2)
      (orElseO (tryPat ctxP3) (orElseO (tryPat ctxP4) (tryPat ctxP5))))).getD []

/-- The pattern built inside the requirements loop (it does not use the loop
keyword): `(?:it|the|this)\s+(?:should|must|need|require|include)\s+(.+?)(?:\.|,|$)`.
Returns the capture and the rest after the match, for `finditer`. -/
def matchReqA (s : List Char) : Option (List Char × List Char) :=
  ((firstAltCI ["it".data, "the".data, "this".data] s).bind skipWs1).bind fun s1 =>
    ((firstAltCI ["should".data, "must".data, "need".data, "require".data,
        "include".data] s1).bind skipWs1).bind (lazyCapGen termDotComma true)

/-- The list-like requirement pattern: `(?:should|must|need)\s+be\s+(.+?)(?:\.|$)`. -/
def matchReqB (s : List Char) : Option (List Char × List Char) :=
  ((firstAltCI ["should".data, "must".data, "need".data] s).bind skipWs1).bind fun s1 =>
    ((matchLitCI "be".data s1).bind skipWs1).bind (lazyCapGen termDotOnly true)

/-- `re.finditer`: repeat leftmost search from the end of the previous match.
Every match of the requirement patterns consumes at least one character, so a
fuel of `length + 1` is never exhausted. -/
def findAllCaps (m : List Char → Option (List Char × List Char)) :
    Nat → List Char → List (List Char)
  | 0, _ => []
  | fuel + 1, s =>
    match searchCapture m s with
    | none => []
    | some (g, r) => g :: findAllCaps m fuel r

/-- One `finditer` pass of the loop pattern, with the per-match
`req = match.group(1).strip(); if req: ...` filter. -/
def req_scan_a (text : List Char) : List String :=
  (((findAllCaps matchReqA (text.length + 1) text).map pyStrip).filter
      (fun g => !g.isEmpty)).map (fun g => (⟨g⟩ : String))

/-- The `finditer` pass of the list-like pattern, with the same filter. -/
def req_scan_b (text : List Char) : List String :=
  (((findAllCaps matchReqB (text.length + 1) text).map pyStrip).filter
      (fun g => !g.isEmpty)).map (fun g => (⟨g⟩ : String))

/-- `self.requirement_keywords` (parser.py lines 27-30). -/
def requirement_keywords : List String :=
  ["should", "must", "need", "require", "include", "with", "containing",
   "that", "having"]

/-- `NaturalLanguageParser._extract_requirements` (lines 141-170),
generalised over the keyword list it loops over: the loop body appends the
matches of the fixed pattern once per keyword (the keyword itself is unused
by the body, exactly as in the source), then the list-like matches, then
deduplicates.  Python's `list(set(...))` iterates in unspecified (hash)
order; it is modelled by `List.dedup`, and every property proved about the
result is order-independent. -/
def extract_requirements_with (kws : List String) (text : List Char) : List String :=
  ((kws.foldl (fun acc _kw => acc ++ req_scan_a text) []) ++ req_scan_b text).dedup

/-- `NaturalLanguageParser._extract_requirements` with the source's keyword
list. -/
def extract_requirements (text : List Char) : List String :=
  extract_requirements_with requirement_keywords text

/-- `direct_formats` of `_extract_output_format`. -/
def direct_formats : List (List Char) :=
  ["json".data, "xml".data, "markdown".data, "html".data, "csv".data, "yaml".data]

/-- The governing-phrase check `(?:in|as|with|using)\s+(?:a|an)?\s*{fmt}` for a
direct format token. -/
def matchFmtGov (fmt : List Char) (s : List Char) : Option (List Char) :=
  ((firstAltCI ["in".data, "as".data, "with".data, "using".data] s).bind skipWs1).bind
    fun s1 =>
      orElseO ((matchLitCI "a".data s1).bind (fun s2 => matchLitCI fmt (s2.dropWhile isPyWs)))
        (orElseO
          ((matchLitCI "an".data s1).bind (fun s2 => matchLitCI fmt (s2.dropWhile isPyWs)))
          (matchLitCI fmt (s1.dropWhile isPyWs)))

/-- `format_patterns[0]`:
`(?:in|as|with|using)\s+(?:a|an)?\s*(?:output\s+)?(?:format|structure|style|type|form)\s+(?:of\s+)?(.+?)(?:\.|$)`. -/
def fmtP1 (s : List Char) : Option (List Char) :=
  ((firstAltCI ["in".data, "as".data, "with".data, "using".data] s).bind skipWs1).bind
    fun s1 =>
      let after : List Char → Option (List Char) := fun sA =>
        optWordWs "output".data
          (fun sB =>
            ((firstAltCI ["format".data, "structure".data, "style".data, "type".data,
                "form".data] sB).bind skipWs1).bind (optWordWs "of".data capDot)) sA
      orElseO ((matchLitCI "a".data s1).bind (fun s2 => after (s2.dropWhile isPyWs)))
        (orElseO ((matchLitCI "an".data s1).bind (fun s2 => after (s2.dropWhile isPyWs)))
          (after (s1.dropWhile isPyWs)))

/-- `format_patterns[1]`: `(?:format|structure|style)\s*:\s*(.+?)(?:\.|$)`. -/
def fmtP2 (s : List Char) : Option (List Char) :=
  (firstAltCI ["format".data, "structure".data, "style".data] s).bind fun s1 =>
    match s1.dropWhile isPyWs with
    | c :: rest => if c == ':' then capDot (rest.dropWhile isPyWs) else none
    | [] => none

/-- `NaturalLanguageParser._extract_output_format` (lines 172-208). -/
def extract_output_format (text : List Char) : List Char :=
  let tl := text.map Char.toLower
  match direct_formats.find?
      (fun fmt => infixOf fmt tl && (searchCapture (matchFmtGov fmt) tl).isSome) with
  | some fmt => fmt
  | none =>
    let useP2 : Unit → List Char := fun _ =>
      match searchCapture fmtP2 tl with
      | some g =>
        let d := pyStrip g
        if (d.map Char.toLower) = "format".data then [] else d
      | none => []
    match searchCapture fmtP1 tl with
    | some g =>
      let d := pyStrip g
      if (d.map Char.toLower) = "format".data then useP2 () else d
    | none => useP2 ()

/-- `NaturalLanguageParser.parse` (lines 32-65): strip the input, then fill
the five fields. -/
def parse (text : String) : ParsedRequest :=
  let t := pyStripStr text
  { intent := ⟨extract_intent t.data⟩
    context := ⟨extract_context t.data⟩
    requirements := extract_requirements t.data
    output_format := ⟨extract_output_format t.data⟩
    original_text := t }

end NaturalLanguageParser

/-- The dict returned by `PromptValidator.validate`.  The Python score is a
float, but every value it can take is an integer (multiples of 5), so it is
modelled by `Int`. -/
structure ValidationReport where
  is_valid : Bool
  issues : List String
  suggestions : List String
  score : Int
deriving DecidableEq, Repr

namespace PromptValidator

/-- `self.min_length`. -/
def min_length : Nat := 10

/-- `self.max_length`. -/
def max_length : Nat := 4000

/-- `self.required_elements`. -/
def required_elements : List String := ["Task"]

/-- `PromptValidator._is_too_vague` (lines 66-80). -/
def is_too_vague (prompt : String) : Bool :=
  decide ((splitWs prompt.data).length < 10) ||
    decide (countChar '?' prompt.data > countChar '.' prompt.data)

/-- `PromptValidator._check_best_practices` (lines 82-108); the role-definition
check adds nothing. -/
def check_best_practices (prompt : String) : List String :=
  let pl := prompt.data.map Char.toLower
  (if !infixOf "example".data pl && !infixOf "sample".data pl then
    ["Consider adding examples for better clarity"]
  else []) ++
  (if decide ((splitWs prompt.data).length > 100) && !infixOf "step".data pl then
    ["For complex tasks, consider breaking into steps"]
  else [])

/-- The issues list accumulated by `validate` (lines 33-47), in source order:
too short, too long, missing required elements. -/
def validate_issues (prompt : String) : List String :=
  (if prompt.length < min_length then
    ["Prompt is too short (minimum 10 characters)"]
  else []) ++
  (if prompt.length > max_length then
    ["Prompt is too long (maximum 4000 characters)"]
  else []) ++
  (required_elements.filter
      (fun e => !infixOf (e.data.map Char.toLower) (prompt.data.map Char.toLower))).map
    (fun e => "Missing required element: " ++ e)

/-- The suggestions list accumulated by `validate`, in source order. -/
def validate_suggestions (prompt : String) : List String :=
  (if prompt.length > max_length then
    ["Consider breaking into multiple prompts or summarizing"]
  else []) ++
  (if is_too_vague prompt then
    ["Consider adding more specific details or examples"]
  else []) ++
  check_best_practices prompt

/-- The per-issue classification of `_calculate_quality_score`:
`"too short" in issue.lower() or "too long" in issue.lower()`. -/
def isLengthIssue (issue : String) : Bool :=
  infixOf "too short".data (issue.data.map Char.toLower) ||
    infixOf "too long".data (issue.data.map Char.toLower)

/-- `"missing" in issue.lower()`. -/
def isMissingIssue (issue : String) : Bool :=
  infixOf "missing".data (issue.data.map Char.toLower)

/-- The amount subtracted from the score for one issue. -/
def issueDeduction (issue : String) : Int :=
  if isLengthIssue issue then 20 else if isMissingIssue issue then 15 else 10

/-- The word-count bonus: +5 when the word count is within [100, 500]. -/
def lengthBonus (prompt : String) : Int :=
  if 100 ≤ (splitWs prompt.data).length ∧ (splitWs prompt.data).length ≤ 500 then 5
  else 0

/-- `PromptValidator._calculate_quality_score` (lines 110-137) before the
final clamp: 100, minus the per-issue deductions, plus the bonus. -/
def rawScore (prompt : String) (issues : List String) : Int :=
  (issues.foldl (fun b issue => b - issueDeduction issue) 100) + lengthBonus prompt

/-- `PromptValidator._calculate_quality_score`: `max(0, min(100, base_score))`. -/
def calculate_quality_score (prompt : String) (issues : List String) : Int :=
  max 0 (min 100 (rawScore prompt issues))

/-- `PromptValidator.validate` (lines 23-64). -/
def validate (prompt : String) : ValidationReport :=
  let issues := validate_issues prompt
  { is_valid := issues.length == 0
    issues := issues
    suggestions := validate_suggestions prompt
    score := calculate_quality_score prompt issues }

end PromptValidator

namespace PromptOptimizer

/-- `role_mappings` of `_determine_role`, as an ordered association list
(Python dicts iterate in insertion order). -/
def role_mappings : List (String × String) :=
  [("story", "an expert creative writer"), ("write", "an expert writer"),
   ("explain", "an expert educator"), ("analyze", "an expert data analyst"),
   ("code", "an expert software developer"), ("design", "an expert designer"),
   ("plan", "an expert strategist"), ("report", "an expert analyst"),
   ("create", "a creative professional")]

/-- `PromptOptimizer._determine_role` (lines 139-159). -/
def determine_role (intent : String) : String :=
  let il := intent.data.map Char.toLower
  match role_mappings.find? (fun kr => infixOf kr.1.data il) with
  | some kr => kr.2
  | none => "an expert assistant"

/-- `complex_indicators` of `_is_complex_task`. -/
def complex_indicators : List String :=
  ["analyze", "create", "build", "develop", "design", "write", "report",
   "plan", "explain", "compare", "evaluate"]

/-- `PromptOptimizer._is_complex_task` (lines 126-137). -/
def is_complex_task (intent : String) (requirements : List String) : Bool :=
  let il := intent.data.map Char.toLower
  complex_indicators.any (fun ind => infixOf ind.data il) ||
    decide (requirements.length ≥ 2)

/-- `PromptOptimizer._create_main_instruction` (lines 161-171); the unused
local `core_task` of the source is omitted. -/
def create_main_instruction (intent original_text : String) : String :=
  if original_text ≠ "" ∧ original_text.length > intent.length + 10 then
    "Please complete the following task:\n\n\"\"\"" ++ original_text ++ "\"\"\""
  else
    "Task: " ++ intent ++ "."

/-- `PromptOptimizer._generate_steps` (lines 173-211); the `requirements`
argument is unused by the source body. -/
def generate_steps (intent : String) (_requirements : List String) : List String :=
  let il := intent.data.map Char.toLower
  if infixOf "write".data il || infixOf "story".data il then
    ["Plan the structure and key elements",
     "Develop the content with clear narrative",
     "Review and refine for clarity and engagement"]
  else if infixOf "analyze".data il || infixOf "report".data il then
    ["Identify key data points and information",
     "Analyze patterns and relationships",
     "Present findings in a clear, structured format"]
  else if infixOf "explain".data il then
    ["Break down the concept into understandable parts",
     "Provide examples and analogies",
     "Summarize key takeaways"]
  else if infixOf "create".data il || infixOf "build".data il then
    ["Define the requirements and scope",
     "Design the approach or structure",
     "Implement the solution step by step"]
  else
    ["Understand the requirements",
     "Break down into manageable components",
     "Execute systematically"]

/-- `format_hints` of `_create_output_format_spec`, in dict insertion order. -/
def format_hints : List (String × String) :=
  [("story", "narrative format with clear paragraphs"),
   ("report", "structured format with sections and headings"),
   ("list", "bulleted or numbered list format"),
   ("code", "code format with syntax highlighting"),
   ("explain", "clear explanation with examples"),
   ("analyze", "analysis format with findings and conclusions")]

/-- `PromptOptimizer._create_output_format_spec` (lines 213-233). -/
def create_output_format_spec (output_format intent : String) : String :=
  if output_format ≠ "" then
    "Output Format: Provide your response in " ++ output_format ++ " format."
  else
    match format_hints.find?
        (fun kd => infixOf kd.1.data (intent.data.map Char.toLower)) with
    | some kd => "Output Format: Provide your response in " ++ kd.2 ++ "."
    | none => ""

/-- `PromptOptimizer._build_prompt` (lines 58-124): the conditional sections,
joined by newlines. -/
def build_prompt (pd : ParsedRequest) : String :=
  let is_complex := is_complex_task pd.intent pd.requirements
  let role := determine_role pd.intent
  let roleParts := if role ≠ "" then ["You are " ++ role ++ "."] else []
  let main_instruction := create_main_instruction pd.intent pd.original_text
  let ctxParts :=
    if pd.context ≠ "" then ["\nContext:\n\"\"\"" ++ pd.context ++ "\"\"\""] else []
  let reqParts :=
    if pd.requirements ≠ [] then
      "\nRequirements:" :: pd.requirements.map (fun r => "- " ++ r)
    else []
  let steps := generate_steps pd.intent pd.requirements
  let stepParts :=
    if is_complex then
      (if steps ≠ [] then
        "\nPlease follow these steps:" ::
          steps.enum.map (fun p => toString (p.1 + 1) ++ ". " ++ p.2)
      else [])
    else []
  let format_spec := create_output_format_spec pd.output_format pd.intent
  let fmtParts := if format_spec ≠ "" then ["\n" ++ format_spec] else []
  joinSep "\n"
    (roleParts ++ [main_instruction] ++ ctxParts ++ reqParts ++ stepParts ++ fmtParts ++
      ["\nPlease be specific, clear, and comprehensive in your response."])

/-- `PromptOptimizer.optimize` (lines 30-56): parse, build, validate; the
validation result is only logged (the branch below does not change the
returned string). -/
def optimize (text : String) : String :=
  let parsed_data := NaturalLanguageParser.parse text
  let optimized_prompt := build_prompt parsed_data
  let validation_result := PromptValidator.validate optimized_prompt
  if validation_result.is_valid then optimized_prompt else optimized_prompt

end PromptOptimizer


/-- Scenario 1 input of the spec. -/
def scenario1 : String := "Write me a story about a robot"

/-- Scenario 3 input of the spec. -/
def scenario3 : String :=
  "Create a data analysis report that should include charts and must be in markdown format"

/-! ### Invariants used by the proofs -/

/-- The first character, if any, is not whitespace (true of every string
produced by `skipWs1` or a leading `dropWhile isPyWs`). -/
def HeadOk (l : List Char) : Prop := ∀ c, l.head? = some c → isPyWs c = false

/-- The last character, if any, is not whitespace (true of every stripped
string). -/
def LastOk (l : List Char) : Prop := ∀ c, l.getLast? = some c → isPyWs c = false

/-- A non-empty capture whose first character is not whitespace. -/
def GoodCap (g : List Char) : Prop := ∃ c t, g = c :: t ∧ isPyWs c = false

/-! ### Helper lemmas -/

theorem orElseO_eq_some {α : Type} {a b : Option α} {v : α} :
    orElseO a b = some v ↔ a = some v ∨ (a = none ∧ b = some v) := by
  cases a <;> simp [orElseO]

theorem head?_dropWhile_ws (l : List Char) {c : Char}
    (h : (l.dropWhile isPyWs).head? = some c) : isPyWs c = false := by
  induction l with
  | nil => simp at h
  | cons a t ih =>
    rw [List.dropWhile_cons] at h
    by_cases ha : isPyWs a
    · rw [if_pos ha] at h
      exact ih h
    · rw [if_neg ha] at h
      simp at h
      subst h
      simpa using ha

theorem skipWs1_headOk {s r : List Char} (h : skipWs1 s = some r) : HeadOk r := by
  cases s with
  | nil => simp [skipWs1] at h
  | cons c cs =>
    simp only [skipWs1] at h
    split at h
    · cases h
      intro d hd
      exact head?_dropWhile_ws cs hd
    · cases h

theorem skipWs1_suffix {s r : List Char} (h : skipWs1 s = some r) : r <:+ s := by
  cases s with
  | nil => simp [skipWs1] at h
  | cons c cs =>
    simp only [skipWs1] at h
    split at h
    · cases h
      exact (List.dropWhile_suffix isPyWs).trans (List.suffix_cons c cs)
    · cases h

theorem lazyCapGen_shape {term : List Char → Option (List Char)} {ae : Bool}
    {s g r : List Char} (h : lazyCapGen term ae s = some (g, r)) :
    ∃ c t, s = c :: t ∧ ∃ g2, g = c :: g2 := by
  cases s with
  | nil => simp [lazyCapGen] at h
  | cons c cs =>
    simp only [lazyCapGen] at h
    split at h
    · cases h
    · split at h
      · cases h
        exact ⟨c, cs, rfl, [], rfl⟩
      · split at h
        · split at h
          · cases h
            exact ⟨c, _, rfl, [], rfl⟩
          · cases h
        · split at h
          · rename_i g' r' _
            cases h
            exact ⟨c, _, rfl, g', rfl⟩
          · cases h

theorem goodCap_of_headOk_cap {term : List Char → Option (List Char)} {ae : Bool}
    {s g r : List Char} (hs : HeadOk s) (h : lazyCapGen term ae s = some (g, r)) :
    GoodCap g := by
  obtain ⟨c, t, rfl, g2, rfl⟩ := lazyCapGen_shape h
  exact ⟨c, g2, rfl, hs c rfl⟩

theorem wsCapGroup_good {term : List Char → Option (List Char)} {s g : List Char}
    (h : wsCapGroup term s = some g) : GoodCap g := by
  simp only [wsCapGroup, Option.map_eq_some'] at h
  obtain ⟨⟨g', r'⟩, hb, rfl⟩ := h
  rw [Option.bind_eq_some] at hb
  obtain ⟨s1, hs1, hcap⟩ := hb
  exact goodCap_of_headOk_cap (skipWs1_headOk hs1) hcap

theorem capDot_good {s g : List Char} (hs : HeadOk s) (h : capDot s = some g) :
    GoodCap g := by
  simp only [capDot, Option.map_eq_some'] at h
  obtain ⟨⟨g', r'⟩, hcap, rfl⟩ := h
  exact goodCap_of_headOk_cap hs hcap

theorem optWordWs_good {w : List Char} {k : List Char → Option (List Char)}
    {s : List Char} {g : List Char}
    (hk : ∀ t g', k t = some g' → GoodCap g')
    (h : optWordWs w k s = some g) : GoodCap g := by
  simp only [optWordWs] at h
  split at h
  · rcases orElseO_eq_some.1 h with h' | ⟨_, h'⟩
    · exact hk _ _ h'
    · exact hk _ _ h'
  · exact hk _ _ h

theorem optWordWs_good_headOk {w : List Char} {k : List Char → Option (List Char)}
    {s : List Char} {g : List Char}
    (hk : ∀ t, HeadOk t → ∀ g', k t = some g' → GoodCap g')
    (hs : HeadOk s) (h : optWordWs w k s = some g) : GoodCap g := by
  simp only [optWordWs] at h
  split at h
  · rename_i s2 hs2
    rw [Option.bind_eq_some] at hs2
    obtain ⟨r, _, hr⟩ := hs2
    rcases orElseO_eq_some.1 h with h' | ⟨_, h'⟩
    · exact hk _ (skipWs1_headOk hr) _ h'
    · exact hk _ hs _ h'
  · exact hk _ hs _ h

theorem searchCapture_some {α : Type} {m : List Char → Option α} {s : List Char}
    {v : α} (h : searchCapture m s = some v) : ∃ u, m u = some v := by
  induction s with
  | nil => exact ⟨[], h⟩
  | cons c cs ih =>
    simp only [searchCapture] at h
    rcases orElseO_eq_some.1 h with h' | ⟨_, h'⟩
    · exact ⟨c :: cs, h'⟩
    · exact ih h'

theorem matchIntentP1_good {s g : List Char}
    (h : NaturalLanguageParser.matchIntentP1 s = some g) : GoodCap g := by
  simp only [NaturalLanguageParser.matchIntentP1, Option.bind_eq_some] at h
  obtain ⟨s1, _, h2⟩ := h
  exact wsCapGroup_good h2

theorem matchIntentP2_good {s g : List Char}
    (h : NaturalLanguageParser.matchIntentP2 s = some g) : GoodCap g := by
  simp only [NaturalLanguageParser.matchIntentP2, Option.bind_eq_some] at h
  obtain ⟨s1, _, h2⟩ := h
  exact wsCapGroup_good h2

theorem matchIntentP3_good {s g : List Char}
    (h : NaturalLanguageParser.matchIntentP3 s = some g) : GoodCap g := by
  simp only [NaturalLanguageParser.matchIntentP3, Option.bind_eq_some] at h
  obtain ⟨s1, _, h2⟩ := h
  refine optWordWs_good ?_ h2
  intro t g' h'
  rw [Option.bind_eq_some] at h'
  obtain ⟨s2, _, h3⟩ := h'
  exact wsCapGroup_good h3

theorem matchIntentP4_good {s g : List Char}
    (h : NaturalLanguageParser.matchIntentP4 s = some g) : GoodCap g := by
  simp only [NaturalLanguageParser.matchIntentP4] at h
  refine optWordWs_good ?_ h
  intro t g' h'
  rw [Option.bind_eq_some] at h'
  obtain ⟨s2, hs2, h3⟩ := h'
  rw [Option.bind_eq_some] at hs2
  obtain ⟨r, _, hr⟩ := hs2
  exact optWordWs_good_headOk (fun t2 ht2 g2 hg2 => capDot_good ht2 hg2)
    (skipWs1_headOk hr) h3

theorem matchIntentAlt1_good {s g : List Char}
    (h : NaturalLanguageParser.matchIntentAlt1 s = some g) : GoodCap g := by
  simp only [NaturalLanguageParser.matchIntentAlt1, Option.bind_eq_some] at h
  obtain ⟨s1, ⟨r, _, hr⟩, h2⟩ := h
  refine optWordWs_good_headOk ?_ (skipWs1_headOk hr) h2
  intro t ht g' hg
  exact optWordWs_good_headOk (fun t2 ht2 g2 hg2 => capDot_good ht2 hg2) ht hg

theorem intentMatch_good {tl g : List Char}
    (h : NaturalLanguageParser.intentMatch tl = some g) : GoodCap g := by
  simp only [NaturalLanguageParser.intentMatch] at h
  rcases orElseO_eq_some.1 h with h1 | ⟨_, h1⟩
  · obtain ⟨u, hu⟩ := searchCapture_some h1
    exact matchIntentP1_good hu
  rcases orElseO_eq_some.1 h1 with h2 | ⟨_, h2⟩
  · obtain ⟨u, hu⟩ := searchCapture_some h2
    exact matchIntentP2_good hu
  rcases orElseO_eq_some.1 h2 with h3 | ⟨_, h3⟩
  · obtain ⟨u, hu⟩ := searchCapture_some h3
    exact matchIntentP3_good hu
  obtain ⟨u, hu⟩ := searchCapture_some h3
  exact matchIntentP4_good hu

theorem intentAltMatch_good {tl g : List Char}
    (h : NaturalLanguageParser.intentAltMatch tl = some g) : GoodCap g := by
  simp only [NaturalLanguageParser.intentAltMatch] at h
  rcases orElseO_eq_some.1 h with h1 | ⟨_, h1⟩
  · obtain ⟨u, hu⟩ := searchCapture_some h1
    exact matchIntentAlt1_good hu
  obtain ⟨u, hu⟩ := searchCapture_some h1
  exact matchIntentP1_good hu

theorem mem_dropWhile_of_nonws {x : Char} {l : List Char} (hx : x ∈ l)
    (hnx : isPyWs x = false) : x ∈ l.dropWhile isPyWs := by
  rw [← List.takeWhile_append_dropWhile isPyWs l] at hx
  rcases List.mem_append.1 hx with h | h
  · have := List.mem_takeWhile_imp h
    rw [hnx] at this
    cases this
  · exact h

theorem pyStrip_ne_nil {l : List Char} (h : ∃ x ∈ l, isPyWs x = false) :
    pyStrip l ≠ [] := by
  obtain ⟨x, hx, hnx⟩ := h
  simp only [pyStrip, ne_eq, List.reverse_eq_nil_iff]
  intro hc
  rw [List.dropWhile_eq_nil_iff] at hc
  have hx1 : x ∈ (l.dropWhile isPyWs).reverse :=
    List.mem_reverse.2 (mem_dropWhile_of_nonws hx hnx)
  have := hc x hx1
  rw [hnx] at this
  cases this

theorem pyStrip_lastOk (l : List Char) : LastOk (pyStrip l) := by
  intro c hc
  simp only [pyStrip] at hc
  rw [List.getLast?_reverse] at hc
  exact head?_dropWhile_ws _ hc

theorem goodCap_strip {g : List Char} (h : GoodCap g) :
    pyStrip g ≠ [] ∧ LastOk (pyStrip g) := by
  refine ⟨pyStrip_ne_nil ?_, pyStrip_lastOk g⟩
  obtain ⟨c, t, rfl, hc⟩ := h
  exact ⟨c, by simp, hc⟩

theorem getLast?_some_mem {l : List Char} {c : Char} (h : l.getLast? = some c) :
    c ∈ l := by
  induction l with
  | nil => simp at h
  | cons a t ih =>
    cases t with
    | nil =>
      simp at h
      simp [h]
    | cons b u =>
      rw [List.getLast?_cons_cons] at h
      exact List.mem_cons_of_mem a (ih h)

theorem exists_getLast?_of_ne_nil {l : List Char} (h : l ≠ []) :
    ∃ c, l.getLast? = some c := by
  have := List.getLast?_isSome.2 h
  exact Option.isSome_iff_exists.1 this

theorem lastOk_exists_nonws {l : List Char} (hne : l ≠ []) (hl : LastOk l) :
    ∃ x ∈ l, isPyWs x = false := by
  obtain ⟨c, hc⟩ := exists_getLast?_of_ne_nil hne
  exact ⟨c, getLast?_some_mem hc, hl c hc⟩

theorem matchLitCI_suffix : ∀ {w s r : List Char}, matchLitCI w s = some r → r <:+ s := by
  intro w
  induction w with
  | nil =>
    intro s r h
    simp only [matchLitCI] at h
    cases h
    exact List.suffix_refl _
  | cons c cs ih =>
    intro s r h
    cases s with
    | nil => simp [matchLitCI] at h
    | cons d ds =>
      simp only [matchLitCI] at h
      split at h
      · exact (ih h).trans (List.suffix_cons d ds)
      · cases h

theorem matchWordsCI_suffix {a : List (List Char)} :
    ∀ {s r : List Char}, NaturalLanguageParser.matchWordsCI a s = some r → r <:+ s := by
  induction a with
  | nil =>
    intro s r h
    simp only [NaturalLanguageParser.matchWordsCI] at h
    cases h
    exact List.suffix_refl _
  | cons w rest ih =>
    intro s r h
    cases rest with
    | nil => exact matchLitCI_suffix h
    | cons x xs =>
      simp only [NaturalLanguageParser.matchWordsCI, Option.bind_eq_some] at h
      obtain ⟨r1, h1, r2, h2a, h2b⟩ := h
      exact ((ih h2b).trans (skipWs1_suffix h2a)).trans (matchLitCI_suffix h1)

theorem head?_append_left {α : Type} {l l' : List α} (h : l ≠ []) :
    (l ++ l').head? = l.head? := by
  cases l with
  | nil => exact absurd rfl h
  | cons a t => simp

theorem getLast?_suffix_eq {r s : List Char} (hsuf : r <:+ s) (hne : r ≠ []) :
    r.getLast? = s.getLast? := by
  obtain ⟨t, rfl⟩ := hsuf
  rw [← List.head?_reverse, ← List.head?_reverse, List.reverse_append,
    head?_append_left]
  simpa using hne


theorem stripLeadAlt_pres {alts : List (List (List Char))} {s : List Char}
    (hne : s ≠ []) (hlast : LastOk s) :
    NaturalLanguageParser.stripLeadAlt alts s ≠ [] ∧
      LastOk (NaturalLanguageParser.stripLeadAlt alts s) := by
  induction alts with
  | nil => exact ⟨hne, hlast⟩
  | cons a rest ih =>
    simp only [NaturalLanguageParser.stripLeadAlt]
    cases hm : NaturalLanguageParser.matchWordsCI a s with
    | none => exact ih
    | some r =>
      show (match skipWs1 r with
        | some r2 => r2
        | none => NaturalLanguageParser.stripLeadAlt rest s) ≠ [] ∧
        LastOk (match skipWs1 r with
          | some r2 => r2
          | none => NaturalLanguageParser.stripLeadAlt rest s)
      cases hsk : skipWs1 r with
      | none => exact ih
      | some r2 =>
        show r2 ≠ [] ∧ LastOk r2
        have hrsuf : r <:+ s := matchWordsCI_suffix hm
        cases r with
        | nil => simp [skipWs1] at hsk
        | cons c cs =>
          simp only [skipWs1] at hsk
          by_cases hwc : isPyWs c = true
          · rw [if_pos hwc] at hsk
            injection hsk with hsk
            subst hsk
            have heqr : (c :: cs).getLast? = s.getLast? :=
              getLast?_suffix_eq hrsuf (by simp)
            have hlastr : LastOk (c :: cs) := fun d hd => hlast d (heqr ▸ hd)
            have hr2ne : cs.dropWhile isPyWs ≠ [] := by
              intro hc
              rw [List.dropWhile_eq_nil_iff] at hc
              obtain ⟨d, hd⟩ := exists_getLast?_of_ne_nil
                (show (c :: cs) ≠ [] by simp)
              have hdns : isPyWs d = false := hlastr d hd
              have hdmem : d ∈ c :: cs := getLast?_some_mem hd
              rcases List.mem_cons.1 hdmem with rfl | hdm
              · rw [hwc] at hdns
                cases hdns
              · have := hc d hdm
                rw [hdns] at this
                cases this
            have hr2suf : cs.dropWhile isPyWs <:+ s :=
              ((List.dropWhile_suffix isPyWs).trans (List.suffix_cons c cs)).trans hrsuf
            have heq : (cs.dropWhile isPyWs).getLast? = s.getLast? :=
              getLast?_suffix_eq hr2suf hr2ne
            exact ⟨hr2ne, fun d hd => hlast d (heq ▸ hd)⟩
          · rw [if_neg hwc] at hsk
            cases hsk

theorem branch_ne (tl i2 : List Char) (b : Bool) (h2ne : i2 ≠ [])
    (h2last : LastOk i2) :
    pyStrip (if b then
      (match NaturalLanguageParser.intentAltMatch tl with
        | some g2 =>
          NaturalLanguageParser.stripLeadAlt NaturalLanguageParser.comboAlts (pyStrip g2)
        | none => i2)
      else i2) ≠ [] := by
  cases b with
  | false =>
    rw [if_neg (by simp)]
    exact pyStrip_ne_nil (lastOk_exists_nonws h2ne h2last)
  | true =>
    rw [if_pos rfl]
    cases ham : NaturalLanguageParser.intentAltMatch tl with
    | none => exact pyStrip_ne_nil (lastOk_exists_nonws h2ne h2last)
    | some g2 =>
      obtain ⟨j0ne, j0last⟩ := goodCap_strip (intentAltMatch_good ham)
      obtain ⟨jne, jlast⟩ := stripLeadAlt_pres j0ne j0last
      exact pyStrip_ne_nil (lastOk_exists_nonws jne jlast)

theorem extract_intent_ne_nil {t : List Char} (hne : t ≠ []) :
    NaturalLanguageParser.extract_intent t ≠ [] := by
  simp only [NaturalLanguageParser.extract_intent]
  cases him : NaturalLanguageParser.intentMatch (t.map Char.toLower) with
  | none => exact hne
  | some g =>
    obtain ⟨h0ne, h0last⟩ := goodCap_strip (intentMatch_good him)
    obtain ⟨h1ne, h1last⟩ :=
      @stripLeadAlt_pres NaturalLanguageParser.pronounAlts _ h0ne h0last
    obtain ⟨h2ne, h2last⟩ :=
      @stripLeadAlt_pres NaturalLanguageParser.articleAlts _ h1ne h1last
    exact branch_ne _ _ _ h2ne h2last

/-! ### Claim C1 -/

/-- C1 (counterexample): for whitespace-only input, `parse` strips the text
to the empty string, no intent pattern matches, and the fallback intent is
that empty string - so the intent field is NOT non-empty for every input. -/
theorem claim_C1_counterexample : (NaturalLanguageParser.parse "   ").intent = "" := by
  decide

/-- C1 (amended): for every input whose whitespace-trimmed form is non-empty,
`parse` returns a non-empty intent; and whenever no intent pattern matches
the lower-cased trimmed text, the intent equals the entire trimmed input
(on whitespace-only input the intent is the empty string, as the
counterexample shows). -/
theorem claim_C1_amended (text : String) :
    (pyStripStr text ≠ "" → (NaturalLanguageParser.parse text).intent ≠ "") ∧
    (NaturalLanguageParser.intentMatch ((pyStripStr text).data.map Char.toLower) = none →
      (NaturalLanguageParser.parse text).intent = pyStripStr text) := by
  constructor
  · intro h
    have hne : (pyStripStr text).data ≠ [] := by
      intro hc
      exact h (String.ext_iff.2 (by rw [hc]))
    have hmain := extract_intent_ne_nil hne
    simp only [NaturalLanguageParser.parse]
    intro hc
    exact hmain (by simpa using String.ext_iff.1 hc)
  · intro h
    simp only [NaturalLanguageParser.parse, NaturalLanguageParser.extract_intent, h]

/-- C1 (witness): on `"hello"` the trimmed input is non-empty, no intent
pattern matches, and the amended theorem yields a non-empty intent equal to
the trimmed input. -/
theorem claim_C1_witness :
    pyStripStr "hello" ≠ "" ∧
    NaturalLanguageParser.intentMatch ((pyStripStr "hello").data.map Char.toLower) = none ∧
    (NaturalLanguageParser.parse "hello").intent ≠ "" ∧
    (NaturalLanguageParser.parse "hello").intent = pyStripStr "hello" :=
  ⟨by decide, by decide, (claim_C1_amended "hello").1 (by decide),
    (claim_C1_amended "hello").2 (by decide)⟩

/-! ### Claim C5 -/

/-- C5: for every input string, the requirements list returned by `parse`
contains no duplicate strings - the collected matches pass through the
source's `list(set(...))`, modelled by `List.dedup`. -/
theorem claim_C5 (text : String) :
    (NaturalLanguageParser.parse text).requirements.Nodup := by
  simp only [NaturalLanguageParser.parse, NaturalLanguageParser.extract_requirements,
    NaturalLanguageParser.extract_requirements_with]
  exact List.nodup_dedup _

/-! ### Claim C7 -/

/-- C7: for every prompt string, the report of `validate` has
`is_valid = true` exactly when its issues list is empty; `is_valid` is
computed from the issues list alone, so the suggestions never influence it. -/
theorem claim_C7 (prompt : String) :
    (PromptValidator.validate prompt).is_valid = true ↔
      (PromptValidator.validate prompt).issues = [] := by
  simp [PromptValidator.validate, List.length_eq_zero]

/-! ### Claim C8 -/

/-- C8: `optimize` returns exactly the prompt built by `build_prompt` from
the parsed record; the validation report is computed but never alters the
returned string (both branches of the validity test return the same
prompt). -/
theorem claim_C8 (text : String) :
    PromptOptimizer.optimize text =
      PromptOptimizer.build_prompt (NaturalLanguageParser.parse text) := by
  simp only [PromptOptimizer.optimize, ite_self]

/-! ### Substring lemmas for the composed prompt -/

theorem infix_ext_right {α : Type} {a l : List α} (m : List α) (h : a <:+: l) :
    a <:+: l ++ m := by
  obtain ⟨s, t, rfl⟩ := h
  exact ⟨s, t ++ m, by simp⟩

theorem infix_ext_left {α : Type} {a m : List α} (l : List α) (h : a <:+: m) :
    a <:+: l ++ m := by
  obtain ⟨s, t, rfl⟩ := h
  exact ⟨l ++ s, t, by simp⟩

theorem data_append (s t : String) : (s ++ t).data = s.data ++ t.data := rfl

theorem joinSep_mem_infix {sep x : String} {l : List String} (hx : x ∈ l) :
    x.data <:+: (joinSep sep l).data := by
  induction l with
  | nil => cases hx
  | cons p rest ih =>
    cases rest with
    | nil =>
      rcases List.mem_cons.1 hx with rfl | h
      · exact List.infix_refl _
      · cases h
    | cons q rs =>
      rcases List.mem_cons.1 hx with rfl | h
      · show x.data <:+: (x ++ sep ++ joinSep sep (q :: rs)).data
        rw [data_append, data_append]
        exact infix_ext_right _ (infix_ext_right _ (List.infix_refl _))
      · have hx2 := ih h
        show x.data <:+: (p ++ sep ++ joinSep sep (q :: rs)).data
        rw [data_append]
        exact infix_ext_left _ hx2

theorem build_prompt_main_infix (pd : ParsedRequest) :
    (PromptOptimizer.create_main_instruction pd.intent pd.original_text).data <:+:
      (PromptOptimizer.build_prompt pd).data := by
  simp only [PromptOptimizer.build_prompt]
  apply joinSep_mem_infix
  simp

/-! ### Claim C3 -/

/-- C3 (counterexample): for a record whose original text is more than 10
characters longer than its intent and contains no capital-T "Task", the main
instruction reads "Please complete the following task:..." - lower-case
"task" - and no other section contributes "Task", so the composed prompt
does not contain the literal substring "Task". -/
theorem claim_C3_counterexample :
    infixOf "Task".data (PromptOptimizer.build_prompt
      { intent := "x", context := "", requirements := [], output_format := "",
        original_text := "abcdefghijklmnop" }).data = false := by
  decide

/-- C3 (amended): the composed prompt always contains the substring "Task"
or its lower-case form "task": the short-input branch emits "Task: ...",
while the quoted-original-text branch emits "...the following task:".  (The
Validator's required-element check is case-insensitive, so either form
satisfies it.) -/
theorem claim_C3_amended (pd : ParsedRequest) :
    "Task".data <:+: (PromptOptimizer.build_prompt pd).data ∨
      "task".data <:+: (PromptOptimizer.build_prompt pd).data := by
  have hinf := build_prompt_main_infix pd
  by_cases h : pd.original_text ≠ "" ∧
      pd.original_text.length > pd.intent.length + 10
  · right
    refine List.IsInfix.trans ?_ hinf
    simp only [PromptOptimizer.create_main_instruction, if_pos h]
    rw [data_append, data_append]
    exact infix_ext_right _ (infix_ext_right _ (by decide))
  · left
    refine List.IsInfix.trans ?_ hinf
    simp only [PromptOptimizer.create_main_instruction, if_neg h]
    rw [data_append, data_append]
    exact infix_ext_right _ (infix_ext_right _ (by decide))

/-! ### Claim C6 -/

/-- The format section, when non-empty, is one of the joined parts of the
composed prompt. -/
theorem build_prompt_fmt_infix (pd : ParsedRequest)
    (h : PromptOptimizer.create_output_format_spec pd.output_format pd.intent ≠ "") :
    ("\n" ++ PromptOptimizer.create_output_format_spec pd.output_format pd.intent).data <:+:
      (PromptOptimizer.build_prompt pd).data := by
  simp only [PromptOptimizer.build_prompt]
  apply joinSep_mem_infix
  simp [h]

/-- C6: for every record whose `output_format` is exactly "json", the format
block of the composed prompt is exactly the line
"Output Format: Provide your response in json format." (the explicit format
round-trips verbatim), and that line occurs in the composed prompt. -/
theorem claim_C6 (pd : ParsedRequest) (h : pd.output_format = "json") :
    PromptOptimizer.create_output_format_spec pd.output_format pd.intent =
        "Output Format: Provide your response in json format." ∧
      "Output Format: Provide your response in json format.".data <:+:
        (PromptOptimizer.build_prompt pd).data := by
  have hspec : PromptOptimizer.create_output_format_spec pd.output_format pd.intent =
      "Output Format: Provide your response in json format." := by
    rw [h]
    simp only [PromptOptimizer.create_output_format_spec]
    rw [if_pos (by decide : ("json" : String) ≠ "")]
    decide
  refine ⟨hspec, ?_⟩
  have h2 := build_prompt_fmt_infix pd (by rw [hspec]; decide)
  refine List.IsInfix.trans ?_ h2
  rw [hspec, data_append]
  exact infix_ext_left _ (List.infix_refl _)

/-- C6 (witness): the theorem applied to a concrete record with
`output_format = "json"`. -/
theorem claim_C6_witness :
    ({ intent := "x", context := "", requirements := [], output_format := "json",
        original_text := "y" } : ParsedRequest).output_format = "json" ∧
      PromptOptimizer.create_output_format_spec "json" "x" =
        "Output Format: Provide your response in json format." ∧
      "Output Format: Provide your response in json format.".data <:+:
        (PromptOptimizer.build_prompt
          { intent := "x", context := "", requirements := [], output_format := "json",
            original_text := "y" }).data :=
  ⟨rfl, (claim_C6 ⟨"x", "", [], "json", "y"⟩ rfl).1,
    (claim_C6 ⟨"x", "", [], "json", "y"⟩ rfl).2⟩

/-! ### Claim C4 -/

/-- C4 (counterexample): a prompt of exactly 100 one-letter words earns the
+5 word-count bonus; with no issues the pre-clamp score 105 is clamped to
100, and adding one length-range issue gives 85 - a drop of 15, not the
documented 20.  The word-count bonus contribution (+5) is identical in both
reports, so clamping alone breaks the "exactly 20 lower" claim. -/
theorem claim_C4_counterexample :
    PromptValidator.calculate_quality_score (joinSep " " (List.replicate 100 "w")) [] =
        100 ∧
      PromptValidator.calculate_quality_score (joinSep " " (List.replicate 100 "w"))
          ["Prompt is too short (minimum 10 characters)"] = 85 ∧
      PromptValidator.calculate_quality_score (joinSep " " (List.replicate 100 "w"))
          ["Prompt is too short (minimum 10 characters)"] ≠
        PromptValidator.calculate_quality_score (joinSep " " (List.replicate 100 "w")) []
          - 20 := by
  refine ⟨by decide, by decide, by decide⟩

/-- C4 (amended): holding the prompt (hence the word-count bonus) fixed,
appending one more length-range issue never increases the score, and
decreases it by exactly the documented 20 whenever the clamp to [0, 100] is
not engaged (the pre-clamp score with the extra issue is at least 0 and the
pre-clamp score without it is at most 100); at the clamp boundaries the
decrease can be smaller than 20. -/
theorem claim_C4_amended (prompt : String) (issues : List String) (issue : String)
    (hlen : PromptValidator.isLengthIssue issue = true) :
    PromptValidator.calculate_quality_score prompt (issues ++ [issue]) ≤
        PromptValidator.calculate_quality_score prompt issues ∧
      (0 ≤ PromptValidator.rawScore prompt (issues ++ [issue]) →
        PromptValidator.rawScore prompt issues ≤ 100 →
        PromptValidator.calculate_quality_score prompt (issues ++ [issue]) =
          PromptValidator.calculate_quality_score prompt issues - 20) := by
  have h1 : (issues ++ [issue]).foldl
      (fun b i => b - PromptValidator.issueDeduction i) 100 =
      issues.foldl (fun b i => b - PromptValidator.issueDeduction i) 100 - 20 := by
    rw [List.foldl_append]
    simp [PromptValidator.issueDeduction, hlen]
  have hraw : PromptValidator.rawScore prompt (issues ++ [issue]) =
      PromptValidator.rawScore prompt issues - 20 := by
    simp only [PromptValidator.rawScore, h1]
    ring
  constructor
  · simp only [PromptValidator.calculate_quality_score, hraw]
    generalize PromptValidator.rawScore prompt issues = x
    simp only [max_def, min_def]
    split_ifs <;> omega
  · intro h0 h100
    rw [hraw] at h0
    simp only [PromptValidator.calculate_quality_score, hraw]
    generalize hx : PromptValidator.rawScore prompt issues = x at h0 h100
    simp only [max_def, min_def]
    split_ifs <;> omega

/-- C4 (witness): on the prompt "abc" (no bonus, no clamping) with an empty
issues list, adding the too-short issue drops the score from 100 to exactly
80. -/
theorem claim_C4_witness :
    PromptValidator.isLengthIssue "Prompt is too short (minimum 10 characters)" = true ∧
      0 ≤ PromptValidator.rawScore "abc"
          (([] : List String) ++ ["Prompt is too short (minimum 10 characters)"]) ∧
      PromptValidator.rawScore "abc" [] ≤ 100 ∧
      PromptValidator.calculate_quality_score "abc"
          (([] : List String) ++ ["Prompt is too short (minimum 10 characters)"]) ≤
        PromptValidator.calculate_quality_score "abc" [] ∧
      PromptValidator.calculate_quality_score "abc"
          (([] : List String) ++ ["Prompt is too short (minimum 10 characters)"]) =
        PromptValidator.calculate_quality_score "abc" [] - 20 :=
  ⟨by decide, by decide, by decide,
    (claim_C4_amended "abc" [] "Prompt is too short (minimum 10 characters)"
      (by decide)).1,
    (claim_C4_amended "abc" [] "Prompt is too short (minimum 10 characters)"
      (by decide)).2 (by decide) (by decide)⟩

/-! ### Claim C10 -/

theorem foldl_acc_append (A : List String) (kws : List String) :
    ∀ acc : List String, kws.foldl (fun a _kw => a ++ A) acc =
      acc ++ (List.replicate kws.length A).flatten := by
  induction kws with
  | nil => intro acc; simp
  | cons k ks ih =>
    intro acc
    simp only [List.foldl_cons, List.length_cons, List.replicate_succ,
      List.flatten_cons]
    rw [ih]
    simp [List.append_assoc]

theorem union_absorb {l₁ l₂ : List String} (h : ∀ a ∈ l₁, a ∈ l₂) :
    l₁ ∪ l₂ = l₂ := by
  induction l₁ with
  | nil => exact List.nil_union l₂
  | cons a t ih =>
    rw [List.cons_union, ih (fun b hb => h b (List.mem_cons_of_mem a hb))]
    exact List.insert_of_mem (h a (List.mem_cons_self a t))

theorem dedup_replicate_append (A B : List String) :
    ∀ n, ((List.replicate (n + 1) A).flatten ++ B).dedup = (A ++ B).dedup := by
  intro n
  induction n with
  | zero => simp
  | succ m ih =>
    rw [List.replicate_succ, List.flatten_cons, List.append_assoc,
      List.dedup_append, ih, List.dedup_append,
      union_absorb (fun a ha => List.mem_union_iff.2 (Or.inl ha)),
      ← List.dedup_append]

/-- C10: the requirements loop is independent of the constraint keywords it
iterates over - for ANY non-empty keyword list the deduplicated result is a
single scan with the fixed "it/the/this + modal" pattern followed by a
single scan with the "should/must/need be" pattern; in particular the
source's nine keywords (including "with", "containing", "that" and "having")
never contribute anything beyond the multiplicity that deduplication
removes. -/
theorem claim_C10 (kws : List String) (text : List Char) (hk : kws ≠ []) :
    NaturalLanguageParser.extract_requirements_with kws text =
        (NaturalLanguageParser.req_scan_a text ++
          NaturalLanguageParser.req_scan_b text).dedup ∧
      NaturalLanguageParser.extract_requirements text =
        (NaturalLanguageParser.req_scan_a text ++
          NaturalLanguageParser.req_scan_b text).dedup := by
  have key : ∀ ks : List String, ks ≠ [] →
      NaturalLanguageParser.extract_requirements_with ks text =
        (NaturalLanguageParser.req_scan_a text ++
          NaturalLanguageParser.req_scan_b text).dedup := by
    intro ks hks
    simp only [NaturalLanguageParser.extract_requirements_with]
    rw [foldl_acc_append]
    simp only [List.nil_append]
    obtain ⟨m, hm⟩ : ∃ m, ks.length = m + 1 := by
      cases ks with
      | nil => exact absurd rfl hks
      | cons a t => exact ⟨t.length, rfl⟩
    rw [hm]
    exact dedup_replicate_append _ _ m
  exact ⟨key kws hk,
    key NaturalLanguageParser.requirement_keywords (by decide)⟩

/-- C10 (witness): the theorem applied to the one-element keyword list
`["x"]` on a concrete text with one match from each pattern. -/
theorem claim_C10_witness :
    (["x"] : List String) ≠ [] ∧
      NaturalLanguageParser.extract_requirements_with ["x"] "this must be concise.".data =
        (NaturalLanguageParser.req_scan_a "this must be concise.".data ++
          NaturalLanguageParser.req_scan_b "this must be concise.".data).dedup :=
  ⟨by decide, (claim_C10 ["x"] "this must be concise.".data (by decide)).1⟩

/-! ### Claim C2 -/

/-- C2 (counterexample): on the Scenario 3 input no extracted requirement
mentions "charts" - the clause "that should include charts" is not captured
because the requirement pattern demands a literal "it", "the" or "this"
before the modal verb, and "that" is none of these. -/
theorem claim_C2_counterexample :
    (NaturalLanguageParser.parse scenario3).requirements.all
      (fun r => !infixOf "charts".data r.data) = true := by
  decide

/-- C2 (amended): on the Scenario 3 input the requirements list is exactly
["in markdown format"] (one element, nothing about charts), the output
format resolves to "markdown", and `is_complex` is true - but because the
intent contains the complexity indicator "report", not because of multiple
requirements (there is only one) - so the composed prompt contains the
numbered steps block. -/
theorem claim_C2_amended :
    (NaturalLanguageParser.parse scenario3).requirements = ["in markdown format"] ∧
      (NaturalLanguageParser.parse scenario3).output_format = "markdown" ∧
      PromptOptimizer.is_complex_task (NaturalLanguageParser.parse scenario3).intent
        (NaturalLanguageParser.parse scenario3).requirements = true ∧
      (NaturalLanguageParser.parse scenario3).requirements.length = 1 ∧
      infixOf "Please follow these steps:\n1. Identify key data points and information".data
        (PromptOptimizer.build_prompt (NaturalLanguageParser.parse scenario3)).data =
        true := by
  refine ⟨by decide, by decide, by decide, by decide, by decide⟩

/-! ### Claim C9 -/

/-- C9: on the Scenario 1 input the intent is "story about a robot" (pronoun
"me" and article "a" stripped), the inferred role is "an expert creative
writer", and the composed prompt contains "You are an expert creative
writer." together with the quoted-instruction line (the original text inside
triple quotes) mentioning "robot". -/
theorem claim_C9 :
    (NaturalLanguageParser.parse scenario1).intent = "story about a robot" ∧
      PromptOptimizer.determine_role (NaturalLanguageParser.parse scenario1).intent =
        "an expert creative writer" ∧
      infixOf "You are an expert creative writer.".data
        (PromptOptimizer.build_prompt (NaturalLanguageParser.parse scenario1)).data =
        true ∧
      infixOf "\"\"\"Write me a story about a robot\"\"\"".data
        (PromptOptimizer.build_prompt (NaturalLanguageParser.parse scenario1)).data =
        true ∧
      infixOf "robot".data
        (PromptOptimizer.build_prompt (NaturalLanguageParser.parse scenario1)).data =
        true := by
  refine ⟨by decide, by decide, by decide, by decide, by decide⟩
